import Mathlib

/-!
# Verification of `honeybee-doe2` model properties and INP reading

Shallow embedding of `honeybee_doe2/properties/model.py`
(`ModelDoe2Properties`: validation aggregation over a host model and
dictionary-based property application) together with the INP reader
contract exercised by `tests/reader_test.py`.

The host model, its geometry checks, the energy sub-extension check and the
per-room hole check are external collaborators: they are represented by
their documented call contract (each check is invoked with its raise flag
set to `False` and returns a message string when `detailed` is false or a
list of structured records when `detailed` is true).
-/

/-- A structured issue record produced by a delegated check in detailed
mode.  The aggregator treats records as opaque mappings and only
concatenates them, so a record is modelled as a list of key/value pairs. -/
abbrev Issue := List (String × String)

/-- The value appended by one delegated check call: a message string when
the call was made with `detailed = False`, or a list of structured issue
records when it was made with `detailed = True`. -/
inductive CheckResult where
  | str (s : String)
  | recs (l : List Issue)
  deriving DecidableEq, Repr

/-- Python truthiness of a check result as used by
`full_msgs = [msg for msg in msgs if msg]`: a string is truthy iff
non-empty, a list is truthy iff non-empty. -/
def CheckResult.truthy : CheckResult → Bool
  | .str s => s != ""
  | .recs l => !l.isEmpty

/-- Iteration over a detailed check result, as in
`[m for msg in full_msgs for m in msg]`.  In the aggregator this is only
reached when every element is a record list; the string case yields `[]`. -/
def CheckResult.items : CheckResult → List Issue
  | .str _ => []
  | .recs l => l

/-- The string content of a non-detailed check result, as consumed by
the newline join of `full_msgs`.  In the aggregator this is only reached when every
element is a string; the record case yields `""`. -/
def CheckResult.text : CheckResult → String
  | .str s => s
  | .recs _ => ""

/-- A delegated collaborator check, always invoked by the aggregator with
its raise flag set to `False`: per the collaborator contract it returns
`msg` when called with `detailed = False` and `recs` when called with
`detailed = True`. -/
structure DelCheck where
  msg : String
  recs : List Issue
  deriving DecidableEq, Repr

/-- Invoke a delegated check (raise flag `False`) with the given
`detailed` flag. -/
def DelCheck.run (c : DelCheck) (detailed : Bool) : CheckResult :=
  if detailed then .recs c.recs else .str c.msg

/-- A Python value as found in a honeybee model dictionary. -/
inductive JValue where
  | null
  | bool (b : Bool)
  | num (n : Int)
  | str (s : String)
  | arr (items : List JValue)
  | obj (fields : List (String × JValue))
  deriving Repr

/-- A room of the host model, seen through the collaborator surface the
aggregator uses: its `properties.doe2.check_no_holes` check and the
abstract per-room DOE-2 property state touched by
`properties.doe2.apply_properties_from_dict`. -/
structure Room where
  check_no_holes : DelCheck
  doe2_data : List JValue

/-- The `properties.energy` sub-extension of the host model, seen through
the single check the aggregator delegates to it. -/
structure EnergyProperties where
  check_interior_constructions_reversed : DelCheck

/-- The host honeybee model, seen through the collaborator surface used by
`ModelDoe2Properties`: tolerances, units, rooms, the energy sub-extension
and the battery of geometry/identifier checks.  Each check field carries
the tolerance arguments the aggregator passes to it. -/
structure HostModel where
  tolerance : Rat
  angle_tolerance : Rat
  units : String
  rooms : List Room
  energy : EnergyProperties
  check_all_duplicate_identifiers : DelCheck
  check_planar : Rat → DelCheck
  check_self_intersecting : Rat → DelCheck
  check_degenerate_rooms : Rat → DelCheck
  check_sub_faces_valid : Rat → Rat → DelCheck
  check_sub_faces_overlapping : Rat → DelCheck
  check_rooms_solid : Rat → Rat → DelCheck
  check_upside_down_faces : Rat → DelCheck
  check_room_volume_collisions : Rat → DelCheck
  check_missing_adjacencies : DelCheck
  check_matching_adjacent_areas : Rat → DelCheck
  check_all_air_boundaries_adjacent : DelCheck

/-- `ModelDoe2Properties.check_no_room_holes`: delegate to each room's own
`check_no_holes` (raise flag `False`, same `detailed`), merge the
non-empty results in room order, and raise (`Except.error`) exactly when
`raise_exception` is set and at least one message was collected. -/
def check_no_room_holes (host : HostModel) (raise_exception : Bool)
    (detailed : Bool) : Except String CheckResult :=
  let detailed := if raise_exception then false else detailed
  if detailed then
    Except.ok (.recs ((host.rooms.map (fun room => room.check_no_holes.recs)).flatten))
  else
    let msgs := (host.rooms.map (fun room => room.check_no_holes.msg)).filter
      (fun m => m != "")
    let full_msg := String.intercalate "\n" msgs
    if raise_exception && msgs.length != 0 then Except.error full_msg
    else Except.ok (.str full_msg)

/-- `ModelDoe2Properties.check_for_extension`: run the fixed battery of
delegated checks in source order, collect the truthy results, and either
return the flattened record list (detailed), raise the joined message
(`raise_exception` with findings), or return the joined message.
`parse_distance_string` is the external `honeybee.units` collaborator. -/
def check_for_extension (parse_distance_string : String → String → Rat)
    (host : HostModel) (raise_exception : Bool) (detailed : Bool) :
    Except String CheckResult :=
  let detailed := if raise_exception then false else detailed
  let tol := host.tolerance
  let ang_tol := host.angle_tolerance
  let e_tol := parse_distance_string "0.03ft" host.units
  let msgs : List CheckResult :=
    [ host.check_all_duplicate_identifiers.run detailed,
      (host.check_planar tol).run detailed,
      (host.check_self_intersecting tol).run detailed,
      (host.check_degenerate_rooms e_tol).run detailed,
      (host.check_sub_faces_valid tol ang_tol).run detailed,
      (host.check_sub_faces_overlapping tol).run detailed,
      (host.check_rooms_solid tol ang_tol).run detailed,
      (host.check_upside_down_faces ang_tol).run detailed,
      (host.check_room_volume_collisions tol).run detailed,
      host.check_missing_adjacencies.run detailed,
      (host.check_matching_adjacent_areas tol).run detailed,
      host.check_all_air_boundaries_adjacent.run detailed,
      host.energy.check_interior_constructions_reversed.run detailed,
      -- self.check_no_room_holes(False, detailed): the raise flag is the
      -- literal False, so the call cannot land in the error branch
      match check_no_room_holes host false detailed with
      | .ok r => r
      | .error e => .str e ]
  let full_msgs := msgs.filter CheckResult.truthy
  if detailed then
    Except.ok (.recs ((full_msgs.map CheckResult.items).flatten))
  else
    let full_msg := String.intercalate "\n" (full_msgs.map CheckResult.text)
    if raise_exception && full_msgs.length != 0 then Except.error full_msg
    else Except.ok (.str full_msg)

/-- `ModelDoe2Properties.check_generic`: same output contract as the
extension battery but over an empty list of checks. -/
def check_generic (host : HostModel) (raise_exception : Bool)
    (detailed : Bool) : Except String CheckResult :=
  let detailed := if raise_exception then false else detailed
  let msgs : List CheckResult := []
  let full_msgs := msgs.filter CheckResult.truthy
  if detailed then
    Except.ok (.recs ((full_msgs.map CheckResult.items).flatten))
  else
    let full_msg := String.intercalate "\n" (full_msgs.map CheckResult.text)
    if raise_exception && full_msgs.length != 0 then Except.error full_msg
    else Except.ok (.str full_msg)

/-- `ModelDoe2Properties.check_all`: same output contract as the extension
battery but over an empty list of checks. -/
def check_all (host : HostModel) (raise_exception : Bool)
    (detailed : Bool) : Except String CheckResult :=
  let detailed := if raise_exception then false else detailed
  let msgs : List CheckResult := []
  let full_msgs := msgs.filter CheckResult.truthy
  if detailed then
    Except.ok (.recs ((full_msgs.map CheckResult.items).flatten))
  else
    let full_msg := String.intercalate "\n" (full_msgs.map CheckResult.text)
    if raise_exception && full_msgs.length != 0 then Except.error full_msg
    else Except.ok (.str full_msg)

/-- The message string produced by each check of the extension battery, in
call order, when the battery runs with `detailed = False`. -/
def extensionMsgs (parse_distance_string : String → String → Rat)
    (host : HostModel) : List String :=
  [ host.check_all_duplicate_identifiers.msg,
    (host.check_planar host.tolerance).msg,
    (host.check_self_intersecting host.tolerance).msg,
    (host.check_degenerate_rooms
      (parse_distance_string "0.03ft" host.units)).msg,
    (host.check_sub_faces_valid host.tolerance host.angle_tolerance).msg,
    (host.check_sub_faces_overlapping host.tolerance).msg,
    (host.check_rooms_solid host.tolerance host.angle_tolerance).msg,
    (host.check_upside_down_faces host.angle_tolerance).msg,
    (host.check_room_volume_collisions host.tolerance).msg,
    host.check_missing_adjacencies.msg,
    (host.check_matching_adjacent_areas host.tolerance).msg,
    host.check_all_air_boundaries_adjacent.msg,
    host.energy.check_interior_constructions_reversed.msg,
    String.intercalate "\n"
      ((host.rooms.map (fun room => room.check_no_holes.msg)).filter
        (fun m => m != "")) ]

/-- The record list produced by each check of the extension battery, in
call order, when the battery runs with `detailed = True`. -/
def extensionRecs (parse_distance_string : String → String → Rat)
    (host : HostModel) : List (List Issue) :=
  [ host.check_all_duplicate_identifiers.recs,
    (host.check_planar host.tolerance).recs,
    (host.check_self_intersecting host.tolerance).recs,
    (host.check_degenerate_rooms
      (parse_distance_string "0.03ft" host.units)).recs,
    (host.check_sub_faces_valid host.tolerance host.angle_tolerance).recs,
    (host.check_sub_faces_overlapping host.tolerance).recs,
    (host.check_rooms_solid host.tolerance host.angle_tolerance).recs,
    (host.check_upside_down_faces host.angle_tolerance).recs,
    (host.check_room_volume_collisions host.tolerance).recs,
    host.check_missing_adjacencies.recs,
    (host.check_matching_adjacent_areas host.tolerance).recs,
    host.check_all_air_boundaries_adjacent.recs,
    host.energy.check_interior_constructions_reversed.recs,
    (host.rooms.map (fun room => room.check_no_holes.recs)).flatten ]

theorem filter_truthy_map_text (ss : List String) :
    (((ss.map CheckResult.str).filter CheckResult.truthy).map CheckResult.text)
      = ss.filter (fun s => s != "") := by
  induction ss with
  | nil => rfl
  | cons s rest ih =>
    by_cases h : s = ""
    · subst h
      simpa [CheckResult.truthy] using ih
    · simp [CheckResult.truthy, CheckResult.text, h, ih]

theorem join_filter_items (ms : List CheckResult) :
    (((ms.filter CheckResult.truthy).map CheckResult.items).flatten)
      = ((ms.map CheckResult.items).flatten) := by
  induction ms with
  | nil => rfl
  | cons m rest ih =>
    cases m with
    | str s =>
      by_cases h : s = ""
      · subst h
        simpa [CheckResult.truthy, CheckResult.items] using ih
      · simp [CheckResult.truthy, CheckResult.items, h, ih]
    | recs l =>
      by_cases h : l.isEmpty
      · have hl : l = [] := by
          cases l with
          | nil => rfl
          | cons a as => simp [List.isEmpty] at h
        subst hl
        simp [CheckResult.truthy, CheckResult.items, ih]
      · simp [CheckResult.truthy, CheckResult.items, h, ih]

/-- First-match lookup in an association list, as in a Python dict whose
keys are unique. -/
def alistLookup {α : Type} (k : String) : List (String × α) → Option α
  | [] => none
  | (k2, v) :: rest => if k2 = k then some v else alistLookup k rest

/-- Prefix test on character lists. -/
def charsLeads : List Char → List Char → Bool
  | [], _ => true
  | _ :: _, [] => false
  | p :: ps, c :: cs => p = c && charsLeads ps cs

/-- Substring occurrence test on character lists. -/
def charsContainsSub (pat : List Char) : List Char → Bool
  | [] => pat.isEmpty
  | c :: cs => charsLeads pat (c :: cs) || charsContainsSub pat cs

/-- Python substring test `sub in s`. -/
def strContainsSub (s sub : String) : Bool :=
  charsContainsSub sub.toList s.toList

/-- The Python errors `apply_properties_from_dict` can surface. -/
inductive PyError where
  | keyError (k : String)
  | typeError
  | assertionError (msg : String)
  deriving DecidableEq, Repr

/-- Python subscript `v[k]` with a string key: a mapping lookup on a dict
(`KeyError` when absent), a `TypeError` on any other value. -/
def pyGetItem (v : JValue) (k : String) : Except PyError JValue :=
  match v with
  | .obj fields =>
    match alistLookup k fields with
    | some x => Except.ok x
    | none => Except.error (.keyError k)
  | _ => Except.error .typeError

/-- Python membership test `k in v` for a string `k`: key membership on a
dict, element equality on a list, substring test on a string, and a
`TypeError` on non-iterable values. -/
def pyContains (v : JValue) (k : String) : Except PyError Bool :=
  match v with
  | .obj fields => Except.ok (alistLookup k fields).isSome
  | .arr items =>
    Except.ok (items.any (fun x =>
      match x with
      | .str s => s = k
      | _ => false))
  | .str s => Except.ok (strContainsSub s k)
  | _ => Except.error .typeError

/-- Python iteration over a value: a list yields its items, a dict its
keys, a string its characters; other values raise `TypeError`. -/
def pyIter (v : JValue) : Except PyError (List JValue) :=
  match v with
  | .arr items => Except.ok items
  | .obj fields => Except.ok (fields.map (fun f => JValue.str f.1))
  | .str s => Except.ok (s.toList.map (fun c => JValue.str (String.mk [c])))
  | _ => Except.error .typeError

/-- The per-room extraction
`try: room_dict['properties']['doe2'] except KeyError: None`:
a missing key is caught and yields `none`, while a `TypeError` from
subscripting a non-dict propagates. -/
def roomDoe2Dict (rd : JValue) : Except PyError (Option JValue) :=
  match pyGetItem rd "properties" with
  | Except.error (.keyError _) => Except.ok none
  | Except.error e => Except.error e
  | Except.ok p =>
    match pyGetItem p "doe2" with
    | Except.error (.keyError _) => Except.ok none
    | Except.error e => Except.error e
    | Except.ok v => Except.ok (some v)

/-- The loop `for room_dict in data['rooms']` building `room_doe2_dicts`:
extract each room dictionary's `doe2` sub-record in order, propagating any
uncaught error. -/
def collectRoomDicts : List JValue → Except PyError (List (Option JValue))
  | [] => Except.ok []
  | rd :: rest =>
    match roomDoe2Dict rd with
    | Except.error e => Except.error e
    | Except.ok d =>
      match collectRoomDicts rest with
      | Except.error e => Except.error e
      | Except.ok ds => Except.ok (d :: ds)

/-- The loop `for room, r_dict in zip(self.host.rooms, room_doe2_dicts)`
with its `if r_dict is not None:` guard: pairs are visited positionally up
to the shorter length, and the room is skipped whenever `r_dict` is
Python's `None` — which arises both from a caught `KeyError` (modelled as
`none`) and from a literal `null` stored under the `doe2` key (modelled as
`some JValue.null`); any other entry is applied to its room through the
room's own property-application method `applyRoom`.  Rooms beyond the zip
keep their state. -/
def applyZip (applyRoom : Room → JValue → Room) :
    List Room → List (Option JValue) → List Room
  | [], _ => []
  | rs, [] => rs
  | r :: rs, d :: ds =>
    (match d with
     | none => r
     | some JValue.null => r
     | some j => applyRoom r j) :: applyZip applyRoom rs ds

/-- `ModelDoe2Properties.apply_properties_from_dict`: assert the presence
of the `doe2` marker under `data['properties']`, then, when a non-`None`
`rooms` entry exists, extract each room dictionary's `doe2` sub-record
(missing keys caught as `None`) and apply the present ones positionally to
the host's rooms.  The room-level application `applyRoom` is the external
per-room collaborator; the updated room list is the resulting state. -/
def apply_properties_from_dict (applyRoom : Room → JValue → Room)
    (hostRooms : List Room) (data : JValue) : Except PyError (List Room) :=
  -- props = data['properties']
  match pyGetItem data "properties" with
  | Except.error e => Except.error e
  | Except.ok props =>
    -- assert 'doe2' in data['properties']
    match pyContains props "doe2" with
    | Except.error e => Except.error e
    | Except.ok hasDoe2 =>
      if !hasDoe2 then
        Except.error (PyError.assertionError
          "Dictionary possesses no ModelDoe2Properties.")
      else
        -- if 'rooms' in data and data['rooms'] is not None
        match pyContains data "rooms" with
        | Except.error e => Except.error e
        | Except.ok hasRooms =>
          if hasRooms then
            match pyGetItem data "rooms" with
            | Except.error e => Except.error e
            | Except.ok JValue.null => Except.ok hostRooms
            | Except.ok rv =>
              match pyIter rv with
              | Except.error e => Except.error e
              | Except.ok items =>
                match collectRoomDicts items with
                | Except.error e => Except.error e
                | Except.ok room_doe2_dicts =>
                  Except.ok (applyZip applyRoom hostRooms room_doe2_dicts)
          else Except.ok hostRooms

theorem filter_truthy_map_items (ls : List (List Issue)) :
    (((ls.map CheckResult.recs).filter CheckResult.truthy).map CheckResult.items)
      = ls.filter (fun l => !l.isEmpty) := by
  induction ls with
  | nil => rfl
  | cons l rest ih =>
    cases h : l.isEmpty <;>
      simp [CheckResult.truthy, CheckResult.items, h, ih, List.filter]

theorem flatten_filter_nonempty {α : Type} (ls : List (List α)) :
    (ls.filter (fun l => !l.isEmpty)).flatten = ls.flatten := by
  induction ls with
  | nil => rfl
  | cons l rest ih =>
    cases l with
    | nil => simpa using ih
    | cons a as => simp [List.filter, ih]

theorem length_filter_truthy_str (ss : List String) :
    ((ss.map CheckResult.str).filter CheckResult.truthy).length
      = (ss.filter (fun s => s != "")).length := by
  have h := congrArg List.length (filter_truthy_map_text ss)
  simpa using h

theorem check_for_extension_false_false
    (parse_distance_string : String → String → Rat) (host : HostModel) :
    check_for_extension parse_distance_string host false false
      = Except.ok (.str (String.intercalate "\n"
          ((extensionMsgs parse_distance_string host).filter (fun s => s != "")))) := by
  have h : check_for_extension parse_distance_string host false false
      = Except.ok (.str (String.intercalate "\n"
          ((((extensionMsgs parse_distance_string host).map CheckResult.str).filter
            CheckResult.truthy).map CheckResult.text))) := rfl
  rw [h, filter_truthy_map_text]

theorem check_for_extension_false_true
    (parse_distance_string : String → String → Rat) (host : HostModel) :
    check_for_extension parse_distance_string host false true
      = Except.ok (.recs
          (((extensionRecs parse_distance_string host).filter
            (fun l => !l.isEmpty)).flatten)) := by
  have h : check_for_extension parse_distance_string host false true
      = Except.ok (.recs
          (((((extensionRecs parse_distance_string host).map CheckResult.recs).filter
            CheckResult.truthy).map CheckResult.items).flatten)) := rfl
  rw [h, filter_truthy_map_items]

theorem check_for_extension_true_eq
    (parse_distance_string : String → String → Rat) (host : HostModel)
    (detailed : Bool) :
    check_for_extension parse_distance_string host true detailed
      = (if ((extensionMsgs parse_distance_string host).filter
              (fun s => s != "")).length != 0
         then Except.error (String.intercalate "\n"
            ((extensionMsgs parse_distance_string host).filter (fun s => s != "")))
         else Except.ok (.str (String.intercalate "\n"
            ((extensionMsgs parse_distance_string host).filter (fun s => s != ""))))) := by
  have h : check_for_extension parse_distance_string host true detailed
      = (if ((((extensionMsgs parse_distance_string host).map CheckResult.str).filter
              CheckResult.truthy)).length != 0
         then Except.error (String.intercalate "\n"
            ((((extensionMsgs parse_distance_string host).map CheckResult.str).filter
              CheckResult.truthy).map CheckResult.text))
         else Except.ok (.str (String.intercalate "\n"
            ((((extensionMsgs parse_distance_string host).map CheckResult.str).filter
              CheckResult.truthy).map CheckResult.text)))) := rfl
  rw [h, filter_truthy_map_text, length_filter_truthy_str]

/-- A delegated check reporting no issues. -/
def okCheck : DelCheck := ⟨"", []⟩

/-- A delegated check reporting one issue. -/
def badCheck : DelCheck := ⟨"duplicate identifier error", [[("type", "TestError")]]⟩

/-- A room whose hole check reports no issues. -/
def sampleRoom : Room := ⟨okCheck, []⟩

/-- A concrete stand-in for the external `parse_distance_string`. -/
def samplePds : String → String → Rat := fun _ _ => 1

/-- A second length parser agreeing with `samplePds` only at `"0.03ft"`. -/
def samplePds2 : String → String → Rat :=
  fun s _ => if s = "0.03ft" then 1 else 5

/-- A host model whose duplicate-identifier check reports one issue and
whose other checks are clean. -/
def sampleHost : HostModel :=
  ⟨1, 1, "Meters", [sampleRoom], ⟨okCheck⟩, badCheck,
    fun _ => okCheck, fun _ => okCheck, fun _ => okCheck, fun _ _ => okCheck,
    fun _ => okCheck, fun _ _ => okCheck, fun _ => okCheck, fun _ => okCheck,
    okCheck, fun _ => okCheck, okCheck⟩

/-- A host model all of whose checks are clean. -/
def sampleCleanHost : HostModel :=
  ⟨1, 1, "Meters", [sampleRoom], ⟨okCheck⟩, okCheck,
    fun _ => okCheck, fun _ => okCheck, fun _ => okCheck, fun _ _ => okCheck,
    fun _ => okCheck, fun _ _ => okCheck, fun _ => okCheck, fun _ => okCheck,
    okCheck, fun _ => okCheck, okCheck⟩

/-- A degenerate-room check agreeing with `sampleHost`'s at the derived
tolerance `samplePds "0.03ft" "Meters" = 1` and differing elsewhere. -/
def sampleDegF : Rat → DelCheck := fun t => if t = 1 then okCheck else badCheck

/-- C1: for every host on which at least one check of the extension battery
reports an issue, `check_for_extension` with `raise_on_error = True` raises
carrying the full newline-joined message of all findings; and for every
host, with `raise_on_error = False` the call returns normally. -/
theorem check_for_extension_error_contract
    (parse_distance_string : String → String → Rat) (host : HostModel)
    (detailed : Bool) :
    ((extensionMsgs parse_distance_string host).filter (fun s => s != "") ≠ [] →
      check_for_extension parse_distance_string host true detailed
        = Except.error (String.intercalate "\n"
            ((extensionMsgs parse_distance_string host).filter (fun s => s != ""))))
    ∧ ∃ r, check_for_extension parse_distance_string host false detailed
        = Except.ok r := by
  constructor
  · intro h
    rw [check_for_extension_true_eq]
    have hne : (((extensionMsgs parse_distance_string host).filter
        (fun s => s != "")).length != 0) = true := by
      simpa [List.length_eq_zero] using h
    simp [hne]
  · cases detailed
    · exact ⟨_, check_for_extension_false_false parse_distance_string host⟩
    · exact ⟨_, check_for_extension_false_true parse_distance_string host⟩

/-- Witness for C1 on a concrete host with one finding. -/
theorem check_for_extension_error_contract_witness :
    check_for_extension samplePds sampleHost true false
      = Except.error (String.intercalate "\n"
          ((extensionMsgs samplePds sampleHost).filter (fun s => s != ""))) :=
  (check_for_extension_error_contract samplePds sampleHost false).1 (by decide)

/-- C3: every check entry point treats `detailed` as `False` whenever the
raise flag is `True`, so with `raise_on_error = True` the non-raising
result is always a string, never a record list. -/
theorem raise_on_error_forces_detailed_false
    (parse_distance_string : String → String → Rat) (host : HostModel)
    (detailed : Bool) :
    (check_for_extension parse_distance_string host true detailed
        = check_for_extension parse_distance_string host true false)
    ∧ (check_generic host true detailed = check_generic host true false)
    ∧ (check_all host true detailed = check_all host true false)
    ∧ (check_no_room_holes host true detailed = check_no_room_holes host true false)
    ∧ (∃ s, check_for_extension parse_distance_string host true detailed
          = Except.error s
        ∨ check_for_extension parse_distance_string host true detailed
          = Except.ok (CheckResult.str s))
    ∧ (∃ s, check_generic host true detailed = Except.error s
        ∨ check_generic host true detailed = Except.ok (CheckResult.str s))
    ∧ (∃ s, check_all host true detailed = Except.error s
        ∨ check_all host true detailed = Except.ok (CheckResult.str s))
    ∧ (∃ s, check_no_room_holes host true detailed = Except.error s
        ∨ check_no_room_holes host true detailed
          = Except.ok (CheckResult.str s)) := by
  refine ⟨rfl, rfl, rfl, rfl, ?_, ?_, ?_, ?_⟩
  · refine ⟨String.intercalate "\n"
      ((extensionMsgs parse_distance_string host).filter (fun s => s != "")), ?_⟩
    rw [check_for_extension_true_eq]
    by_cases hc : (((extensionMsgs parse_distance_string host).filter
        (fun s => s != "")).length != 0) = true <;> simp [hc]
  · exact ⟨"", Or.inr rfl⟩
  · exact ⟨"", Or.inr rfl⟩
  · refine ⟨String.intercalate "\n"
      ((host.rooms.map (fun room => room.check_no_holes.msg)).filter
        (fun m => m != "")), ?_⟩
    show _ ∨ _
    by_cases hc : (((host.rooms.map (fun room => room.check_no_holes.msg)).filter
        (fun m => m != "")).length != 0) = true
    · left
      show check_no_room_holes host true detailed = _
      have h : check_no_room_holes host true detailed
          = (if ((host.rooms.map (fun room => room.check_no_holes.msg)).filter
                (fun m => m != "")).length != 0
             then Except.error (String.intercalate "\n"
              ((host.rooms.map (fun room => room.check_no_holes.msg)).filter
                (fun m => m != "")))
             else Except.ok (.str (String.intercalate "\n"
              ((host.rooms.map (fun room => room.check_no_holes.msg)).filter
                (fun m => m != ""))))) := rfl
      rw [h, if_pos hc]
    · right
      have h : check_no_room_holes host true detailed
          = (if ((host.rooms.map (fun room => room.check_no_holes.msg)).filter
                (fun m => m != "")).length != 0
             then Except.error (String.intercalate "\n"
              ((host.rooms.map (fun room => room.check_no_holes.msg)).filter
                (fun m => m != "")))
             else Except.ok (.str (String.intercalate "\n"
              ((host.rooms.map (fun room => room.check_no_holes.msg)).filter
                (fun m => m != ""))))) := rfl
      rw [h, if_neg hc]

/-- C4: with `raise_on_error = False`, `check_for_extension` returns in
detailed mode the flat ordered concatenation of the structured records of
the checks that produced any, and otherwise the non-empty per-check
strings joined with newlines; on a host with zero issues it returns
`""` and `[]` respectively. -/
theorem check_for_extension_report_shapes
    (parse_distance_string : String → String → Rat) (host : HostModel) :
    (check_for_extension parse_distance_string host false true
      = Except.ok (.recs (((extensionRecs parse_distance_string host).filter
          (fun l => !l.isEmpty)).flatten)))
    ∧ (check_for_extension parse_distance_string host false false
      = Except.ok (.str (String.intercalate "\n"
          ((extensionMsgs parse_distance_string host).filter (fun s => s != "")))))
    ∧ ((∀ s ∈ extensionMsgs parse_distance_string host, s = "") →
        check_for_extension parse_distance_string host false false
          = Except.ok (.str ""))
    ∧ ((∀ l ∈ extensionRecs parse_distance_string host, l = []) →
        check_for_extension parse_distance_string host false true
          = Except.ok (.recs [])) := by
  refine ⟨check_for_extension_false_true parse_distance_string host,
    check_for_extension_false_false parse_distance_string host, ?_, ?_⟩
  · intro h
    rw [check_for_extension_false_false]
    have hf : (extensionMsgs parse_distance_string host).filter
        (fun s => s != "") = [] := by
      rw [List.filter_eq_nil_iff]
      intro s hs
      simp [h s hs]
    rw [hf]
    rfl
  · intro h
    rw [check_for_extension_false_true]
    have hf : (extensionRecs parse_distance_string host).filter
        (fun l => !l.isEmpty) = [] := by
      rw [List.filter_eq_nil_iff]
      intro l hl
      simp [h l hl]
    rw [hf]
    rfl

/-- Witness for C4 on a concrete host with zero issues. -/
theorem check_for_extension_report_shapes_witness :
    check_for_extension samplePds sampleCleanHost false false
        = Except.ok (.str "")
    ∧ check_for_extension samplePds sampleCleanHost false true
        = Except.ok (.recs []) :=
  ⟨(check_for_extension_report_shapes samplePds sampleCleanHost).2.2.1 (by decide),
    (check_for_extension_report_shapes samplePds sampleCleanHost).2.2.2 (by decide)⟩

/-- C5: `check_for_extension` invokes the delegated checks once each, in
source order, each with its raise flag `False` (captured by the `DelCheck`
collaborator contract), and the merged report preserves the call order:
the detailed report is the concatenation of the per-check record lists in
battery order and the string report joins the per-check messages in
battery order. -/
theorem check_for_extension_call_order
    (parse_distance_string : String → String → Rat) (host : HostModel) :
    (check_for_extension parse_distance_string host false true
      = Except.ok (.recs (
          host.check_all_duplicate_identifiers.recs ++
          (host.check_planar host.tolerance).recs ++
          (host.check_self_intersecting host.tolerance).recs ++
          (host.check_degenerate_rooms
            (parse_distance_string "0.03ft" host.units)).recs ++
          (host.check_sub_faces_valid host.tolerance host.angle_tolerance).recs ++
          (host.check_sub_faces_overlapping host.tolerance).recs ++
          (host.check_rooms_solid host.tolerance host.angle_tolerance).recs ++
          (host.check_upside_down_faces host.angle_tolerance).recs ++
          (host.check_room_volume_collisions host.tolerance).recs ++
          host.check_missing_adjacencies.recs ++
          (host.check_matching_adjacent_areas host.tolerance).recs ++
          host.check_all_air_boundaries_adjacent.recs ++
          host.energy.check_interior_constructions_reversed.recs ++
          (host.rooms.map (fun room => room.check_no_holes.recs)).flatten)))
    ∧ (check_for_extension parse_distance_string host false false
      = Except.ok (.str (String.intercalate "\n"
          ([ host.check_all_duplicate_identifiers.msg,
             (host.check_planar host.tolerance).msg,
             (host.check_self_intersecting host.tolerance).msg,
             (host.check_degenerate_rooms
               (parse_distance_string "0.03ft" host.units)).msg,
             (host.check_sub_faces_valid host.tolerance host.angle_tolerance).msg,
             (host.check_sub_faces_overlapping host.tolerance).msg,
             (host.check_rooms_solid host.tolerance host.angle_tolerance).msg,
             (host.check_upside_down_faces host.angle_tolerance).msg,
             (host.check_room_volume_collisions host.tolerance).msg,
             host.check_missing_adjacencies.msg,
             (host.check_matching_adjacent_areas host.tolerance).msg,
             host.check_all_air_boundaries_adjacent.msg,
             host.energy.check_interior_constructions_reversed.msg,
             String.intercalate "\n"
               ((host.rooms.map (fun room => room.check_no_holes.msg)).filter
                 (fun m => m != "")) ].filter (fun s => s != ""))))) := by
  constructor
  · rw [check_for_extension_false_true, flatten_filter_nonempty]
    simp [extensionRecs, List.append_assoc]
  · rw [check_for_extension_false_false]
    rfl

/-- C6: the tolerance handed by `check_for_extension` to the
degenerate-room check is exactly `parse_distance_string "0.03ft"
host.units`: replacing the degenerate-room check by any function agreeing
at that tolerance, and the length parser by any parser agreeing at
`("0.03ft", host.units)`, leaves the whole result unchanged. -/
theorem check_for_extension_degenerate_tolerance
    (pds pds2 : String → String → Rat) (host : HostModel) (f : Rat → DelCheck)
    (raise_exception detailed : Bool)
    (hf : f (pds "0.03ft" host.units)
      = host.check_degenerate_rooms (pds "0.03ft" host.units))
    (hp : pds2 "0.03ft" host.units = pds "0.03ft" host.units) :
    check_for_extension pds2 { host with check_degenerate_rooms := f }
        raise_exception detailed
      = check_for_extension pds host raise_exception detailed := by
  simp only [check_for_extension, check_no_room_holes, hp, hf]

/-- Witness for C6: a degenerate-room check agreeing only at the derived
tolerance and a parser agreeing only at `"0.03ft"` give the same result. -/
theorem check_for_extension_degenerate_tolerance_witness :
    check_for_extension samplePds2
        { sampleHost with check_degenerate_rooms := sampleDegF } true false
      = check_for_extension samplePds sampleHost true false :=
  check_for_extension_degenerate_tolerance samplePds samplePds2 sampleHost
    sampleDegF true false (by decide) (by decide)

/-- C8: `check_no_room_holes` delegates to each room's `check_no_holes`
in room order (raise flag `False`, matching `detailed`), merges the
per-room non-empty results preserving room order, and raises the
newline-joined message exactly when `raise_on_error` is true and at least
one room reported an issue. -/
theorem check_no_room_holes_contract (host : HostModel) (detailed : Bool) :
    (check_no_room_holes host false detailed
      = Except.ok (if detailed
          then CheckResult.recs
            ((host.rooms.map (fun room => room.check_no_holes.recs)).flatten)
          else CheckResult.str (String.intercalate "\n"
            ((host.rooms.map (fun room => room.check_no_holes.msg)).filter
              (fun m => m != "")))))
    ∧ (check_no_room_holes host true detailed
      = (if ((host.rooms.map (fun room => room.check_no_holes.msg)).filter
              (fun m => m != "")).length != 0
         then Except.error (String.intercalate "\n"
            ((host.rooms.map (fun room => room.check_no_holes.msg)).filter
              (fun m => m != "")))
         else Except.ok (CheckResult.str (String.intercalate "\n"
            ((host.rooms.map (fun room => room.check_no_holes.msg)).filter
              (fun m => m != "")))))) := by
  constructor
  · cases detailed <;> rfl
  · rfl

theorem pyGetItem_error_cases (v : JValue) (k : String) (e : PyError)
    (h : pyGetItem v k = Except.error e) :
    e = PyError.keyError k ∨ e = PyError.typeError := by
  cases v
  case obj fields =>
    simp only [pyGetItem] at h
    cases hl : alistLookup k fields with
    | none =>
      rw [hl] at h
      simp at h
      exact Or.inl h.symm
    | some x =>
      rw [hl] at h
      simp at h
  all_goals
    simp [pyGetItem] at h
    exact Or.inr h.symm

theorem roomDoe2Dict_error (rd : JValue) (e : PyError)
    (h : roomDoe2Dict rd = Except.error e) : e = PyError.typeError := by
  cases rd
  case obj fields =>
    cases hl : alistLookup "properties" fields with
    | none => simp [roomDoe2Dict, pyGetItem, hl] at h
    | some p =>
      cases p
      case obj pf =>
        cases hl2 : alistLookup "doe2" pf with
        | none => simp [roomDoe2Dict, pyGetItem, hl, hl2] at h
        | some v => simp [roomDoe2Dict, pyGetItem, hl, hl2] at h
      all_goals
        simp [roomDoe2Dict, pyGetItem, hl] at h
        exact h.symm
  all_goals
    simp [roomDoe2Dict, pyGetItem] at h
    exact h.symm

theorem collectRoomDicts_error (rds : List JValue) (e : PyError)
    (h : collectRoomDicts rds = Except.error e) : e = PyError.typeError := by
  induction rds with
  | nil => simp [collectRoomDicts] at h
  | cons rd rest ih =>
    simp only [collectRoomDicts] at h
    cases hg : roomDoe2Dict rd with
    | error e2 =>
      rw [hg] at h
      simp at h
      rw [h] at hg
      exact roomDoe2Dict_error rd e hg
    | ok d =>
      rw [hg] at h
      simp only [] at h
      cases hc : collectRoomDicts rest with
      | error e3 =>
        rw [hc] at h
        simp at h
        rw [h] at hc
        exact ih hc
      | ok ds =>
        rw [hc] at h
        simp at h

/-- The inner record-application tail of `apply_properties_from_dict`
can only surface a `TypeError`, never the schema assertion. -/
theorem collect_tail_no_assert (applyRoom : Room → JValue → Room)
    (hostRooms : List Room) (items : List JValue) (m : String) :
    (match collectRoomDicts items with
     | Except.error e => Except.error e
     | Except.ok room_doe2_dicts =>
       Except.ok (applyZip applyRoom hostRooms room_doe2_dicts))
      ≠ Except.error (PyError.assertionError m) := by
  cases hcr : collectRoomDicts items with
  | error e2 =>
    have he := collectRoomDicts_error items e2 hcr
    subst he
    simp
  | ok ds => simp

/-- C2: for every input dictionary whose `properties` entry lacks the
`doe2` key, `apply_properties_from_dict` fails with the schema assertion
`"Dictionary possesses no ModelDoe2Properties."`; when the key is present
under `properties`, that failure is never raised. -/
theorem apply_properties_schema_error (applyRoom : Room → JValue → Room)
    (hostRooms : List Room) (data props : JValue)
    (hp : pyGetItem data "properties" = Except.ok props) :
    (pyContains props "doe2" = Except.ok false →
      apply_properties_from_dict applyRoom hostRooms data
        = Except.error (PyError.assertionError
            "Dictionary possesses no ModelDoe2Properties."))
    ∧ (pyContains props "doe2" = Except.ok true →
        apply_properties_from_dict applyRoom hostRooms data
          ≠ Except.error (PyError.assertionError
              "Dictionary possesses no ModelDoe2Properties.")) := by
  constructor
  · intro hc
    simp [apply_properties_from_dict, hp, hc]
  · intro hc hcontra
    cases data
    case obj fields =>
      cases hl : alistLookup "rooms" fields with
      | none =>
        have h1 : pyContains (JValue.obj fields) "rooms" = Except.ok false := by
          simp [pyContains, hl]
        simp [apply_properties_from_dict, hp, hc, h1] at hcontra
      | some rv =>
        have h1 : pyContains (JValue.obj fields) "rooms" = Except.ok true := by
          simp [pyContains, hl]
        have h2 : pyGetItem (JValue.obj fields) "rooms" = Except.ok rv := by
          simp [pyGetItem, hl]
        cases rv
        case null =>
          simp [apply_properties_from_dict, hp, hc, h1, h2] at hcontra
        case bool b =>
          simp [apply_properties_from_dict, hp, hc, h1, h2, pyIter] at hcontra
        case num n =>
          simp [apply_properties_from_dict, hp, hc, h1, h2, pyIter] at hcontra
        case str s =>
          simp [apply_properties_from_dict, hp, hc, h1, h2, pyIter] at hcontra
          split at hcontra
          · rename_i e2 heq
            have he := collectRoomDicts_error _ e2 heq
            subst he
            simp at hcontra
          · simp at hcontra
        case arr items =>
          simp [apply_properties_from_dict, hp, hc, h1, h2, pyIter] at hcontra
          split at hcontra
          · rename_i e2 heq
            have he := collectRoomDicts_error _ e2 heq
            subst he
            simp at hcontra
          · simp at hcontra
        case obj rf =>
          simp [apply_properties_from_dict, hp, hc, h1, h2, pyIter] at hcontra
          split at hcontra
          · rename_i e2 heq
            have he := collectRoomDicts_error _ e2 heq
            subst he
            simp at hcontra
          · simp at hcontra
    all_goals simp [pyGetItem] at hp

/-- The per-room application collaborator used in concrete witnesses:
record each applied dictionary in the room's DOE-2 state. -/
def sampleApplyRoom : Room → JValue → Room :=
  fun r j => ⟨r.check_no_holes, r.doe2_data ++ [j]⟩

/-- A model dictionary whose `properties` entry lacks the `doe2` key. -/
def sampleDataNoDoe2 : JValue :=
  JValue.obj [("properties", JValue.obj [("energy", JValue.obj [])])]

/-- A model dictionary with the `doe2` marker and no `rooms` key. -/
def sampleDataWithDoe2 : JValue :=
  JValue.obj [("properties", JValue.obj [("doe2", JValue.obj [])])]

/-- A model dictionary with the `doe2` marker and a `None` `rooms` entry. -/
def sampleDataNullRooms : JValue :=
  JValue.obj [("properties", JValue.obj [("doe2", JValue.obj [])]),
    ("rooms", JValue.null)]

/-- Witness for C2 on concrete dictionaries with and without the marker. -/
theorem apply_properties_schema_error_witness :
    apply_properties_from_dict sampleApplyRoom [sampleRoom] sampleDataNoDoe2
        = Except.error (PyError.assertionError
            "Dictionary possesses no ModelDoe2Properties.")
    ∧ apply_properties_from_dict sampleApplyRoom [sampleRoom] sampleDataWithDoe2
        ≠ Except.error (PyError.assertionError
            "Dictionary possesses no ModelDoe2Properties.") :=
  ⟨(apply_properties_schema_error sampleApplyRoom [sampleRoom] sampleDataNoDoe2
      (JValue.obj [("energy", JValue.obj [])]) (by rfl)).1 (by rfl),
    (apply_properties_schema_error sampleApplyRoom [sampleRoom] sampleDataWithDoe2
      (JValue.obj [("doe2", JValue.obj [])]) (by rfl)).2 (by rfl)⟩

theorem applyZip_length (applyRoom : Room → JValue → Room)
    (rs : List Room) (ds : List (Option JValue)) :
    (applyZip applyRoom rs ds).length = rs.length := by
  induction rs generalizing ds with
  | nil => simp [applyZip]
  | cons r rs ih =>
    cases ds with
    | nil => simp [applyZip]
    | cons d ds => simp [applyZip, ih]

theorem applyZip_get_beyond (applyRoom : Room → JValue → Room)
    (rs : List Room) (ds : List (Option JValue)) (i : Nat)
    (h : ds[i]? = none) : (applyZip applyRoom rs ds)[i]? = rs[i]? := by
  induction rs generalizing ds i with
  | nil => simp [applyZip]
  | cons r rs ih =>
    cases ds with
    | nil => simp [applyZip]
    | cons d ds =>
      cases i with
      | zero => simp at h
      | succ n =>
        simp only [applyZip, List.getElem?_cons_succ] at h ⊢
        exact ih ds n h

theorem applyZip_get_skip (applyRoom : Room → JValue → Room)
    (rs : List Room) (ds : List (Option JValue)) (i : Nat)
    (h : ds[i]? = some none) : (applyZip applyRoom rs ds)[i]? = rs[i]? := by
  induction rs generalizing ds i with
  | nil => simp [applyZip]
  | cons r rs ih =>
    cases ds with
    | nil => simp at h
    | cons d ds =>
      cases i with
      | zero =>
        simp at h
        subst h
        simp [applyZip]
      | succ n =>
        simp only [applyZip, List.getElem?_cons_succ] at h ⊢
        exact ih ds n h

theorem applyZip_get_null (applyRoom : Room → JValue → Room)
    (rs : List Room) (ds : List (Option JValue)) (i : Nat)
    (h : ds[i]? = some (some JValue.null)) :
    (applyZip applyRoom rs ds)[i]? = rs[i]? := by
  induction rs generalizing ds i with
  | nil => simp [applyZip]
  | cons r rs ih =>
    cases ds with
    | nil => simp at h
    | cons d ds =>
      cases i with
      | zero =>
        simp at h
        subst h
        simp [applyZip]
      | succ n =>
        simp only [applyZip, List.getElem?_cons_succ] at h ⊢
        exact ih ds n h

theorem applyZip_get_apply (applyRoom : Room → JValue → Room)
    (rs : List Room) (ds : List (Option JValue)) (i : Nat) (j : JValue)
    (h : ds[i]? = some (some j)) (hj : j ≠ JValue.null) :
    (applyZip applyRoom rs ds)[i]? = (rs[i]?).map (fun r => applyRoom r j) := by
  induction rs generalizing ds i with
  | nil => simp [applyZip]
  | cons r rs ih =>
    cases ds with
    | nil => simp at h
    | cons d ds =>
      cases i with
      | zero =>
        simp at h
        subst h
        cases j with
        | null => exact absurd rfl hj
        | bool b => simp [applyZip]
        | num n => simp [applyZip]
        | str s => simp [applyZip]
        | arr items => simp [applyZip]
        | obj fields => simp [applyZip]
      | succ n =>
        simp only [applyZip, List.getElem?_cons_succ] at h ⊢
        exact ih ds n h

/-- C7: with the marker present and a `rooms` list whose length may differ
from the host's room count, `apply_properties_from_dict` silently
truncates to the shorter length (positional zip): rooms beyond the zip are
untouched, rooms whose entry lacks a `doe2` sub-record — a missing key or
a literal `null` value, both Python `None` at the `is not None` guard —
are skipped, and rooms with a present (non-`None`) sub-record receive the
delegated application. -/
theorem apply_properties_zip_truncation (applyRoom : Room → JValue → Room)
    (hostRooms : List Room) (data props : JValue) (rds : List JValue)
    (ds : List (Option JValue))
    (hp : pyGetItem data "properties" = Except.ok props)
    (hd : pyContains props "doe2" = Except.ok true)
    (hr : pyGetItem data "rooms" = Except.ok (JValue.arr rds))
    (hm : collectRoomDicts rds = Except.ok ds) :
    apply_properties_from_dict applyRoom hostRooms data
        = Except.ok (applyZip applyRoom hostRooms ds)
    ∧ (applyZip applyRoom hostRooms ds).length = hostRooms.length
    ∧ (∀ i : Nat, ds[i]? = none →
        (applyZip applyRoom hostRooms ds)[i]? = hostRooms[i]?)
    ∧ (∀ i : Nat, ds[i]? = some none →
        (applyZip applyRoom hostRooms ds)[i]? = hostRooms[i]?)
    ∧ (∀ i : Nat, ds[i]? = some (some JValue.null) →
        (applyZip applyRoom hostRooms ds)[i]? = hostRooms[i]?)
    ∧ (∀ i : Nat, ∀ j : JValue, ds[i]? = some (some j) → j ≠ JValue.null →
        (applyZip applyRoom hostRooms ds)[i]?
          = (hostRooms[i]?).map (fun r => applyRoom r j)) := by
  refine ⟨?_, applyZip_length applyRoom hostRooms ds,
    fun i h => applyZip_get_beyond applyRoom hostRooms ds i h,
    fun i h => applyZip_get_skip applyRoom hostRooms ds i h,
    fun i h => applyZip_get_null applyRoom hostRooms ds i h,
    fun i j h hj => applyZip_get_apply applyRoom hostRooms ds i j h hj⟩
  cases data
  case obj fields =>
    cases hl : alistLookup "rooms" fields with
    | none => simp [pyGetItem, hl] at hr
    | some v =>
      have hv : v = JValue.arr rds := by simpa [pyGetItem, hl] using hr
      subst hv
      have h1 : pyContains (JValue.obj fields) "rooms" = Except.ok true := by
        simp [pyContains, hl]
      simp [apply_properties_from_dict, hp, hd, h1, hr, pyIter, hm]
  all_goals simp [pyGetItem] at hp

/-- The `doe2` sub-record applied to the first host room in the witness. -/
def sampleSubRecord : JValue := JValue.obj [("x", JValue.num 1)]

/-- The `rooms` entries of the witness dictionary: one room dictionary
with a `doe2` sub-record, one without, and one whose `doe2` value is a
literal `null`. -/
def sampleRds : List JValue :=
  [JValue.obj [("properties", JValue.obj [("doe2", sampleSubRecord)])],
   JValue.obj [],
   JValue.obj [("properties", JValue.obj [("doe2", JValue.null)])]]

/-- The extracted sub-records of `sampleRds`. -/
def sampleDs : List (Option JValue) :=
  [some sampleSubRecord, none, some JValue.null]

/-- Four host rooms, one more than the witness dictionary lists. -/
def sampleHostRooms : List Room :=
  [⟨okCheck, []⟩, ⟨okCheck, []⟩, ⟨okCheck, []⟩, ⟨okCheck, []⟩]

/-- The witness dictionary: marker present, three room entries. -/
def sampleDataRooms : JValue :=
  JValue.obj [("properties", JValue.obj [("doe2", JValue.obj [])]),
    ("rooms", JValue.arr sampleRds)]

/-- Witness for C7: four host rooms against three room dictionaries; the
fourth room is untouched by truncation, the second skipped for lack of a
sub-record, the third skipped for its literal `null` sub-record, and the
first receives the application. -/
theorem apply_properties_zip_truncation_witness :
    apply_properties_from_dict sampleApplyRoom sampleHostRooms sampleDataRooms
        = Except.ok (applyZip sampleApplyRoom sampleHostRooms sampleDs)
    ∧ (applyZip sampleApplyRoom sampleHostRooms sampleDs).length
        = sampleHostRooms.length
    ∧ (applyZip sampleApplyRoom sampleHostRooms sampleDs)[3]?
        = sampleHostRooms[3]?
    ∧ (applyZip sampleApplyRoom sampleHostRooms sampleDs)[1]?
        = sampleHostRooms[1]?
    ∧ (applyZip sampleApplyRoom sampleHostRooms sampleDs)[2]?
        = sampleHostRooms[2]?
    ∧ (applyZip sampleApplyRoom sampleHostRooms sampleDs)[0]?
        = (sampleHostRooms[0]?).map (fun r => sampleApplyRoom r sampleSubRecord) := by
  obtain ⟨h1, h2, h3, h4, h5, h6⟩ := apply_properties_zip_truncation
    sampleApplyRoom sampleHostRooms sampleDataRooms
    (JValue.obj [("doe2", JValue.obj [])])
    sampleRds sampleDs (by rfl) (by rfl) (by rfl) (by rfl)
  exact ⟨h1, h2, h3 3 (by rfl), h4 1 (by rfl), h5 2 (by rfl),
    h6 0 sampleSubRecord (by rfl) (by simp [sampleSubRecord])⟩

/-- C10: with the marker present, a dictionary with no `rooms` key or a
`None` `rooms` entry leaves every host room untouched and returns
normally. -/
theorem apply_properties_no_rooms (applyRoom : Room → JValue → Room)
    (hostRooms : List Room) (data props : JValue)
    (hp : pyGetItem data "properties" = Except.ok props)
    (hd : pyContains props "doe2" = Except.ok true)
    (hr : pyContains data "rooms" = Except.ok false
        ∨ pyGetItem data "rooms" = Except.ok JValue.null) :
    apply_properties_from_dict applyRoom hostRooms data
      = Except.ok hostRooms := by
  rcases hr with hr | hr
  · simp [apply_properties_from_dict, hp, hd, hr]
  · cases data
    case obj fields =>
      have h1 : pyContains (JValue.obj fields) "rooms" = Except.ok true := by
        cases hl : alistLookup "rooms" fields with
        | none => simp [pyGetItem, hl] at hr
        | some v => simp [pyContains, hl]
      simp [apply_properties_from_dict, hp, hd, h1, hr]
    all_goals simp [pyGetItem] at hp

/-- Witness for C10: a dictionary without a `rooms` key and one with a
`None` `rooms` entry both leave the host rooms unchanged. -/
theorem apply_properties_no_rooms_witness :
    apply_properties_from_dict sampleApplyRoom sampleHostRooms
        sampleDataWithDoe2 = Except.ok sampleHostRooms
    ∧ apply_properties_from_dict sampleApplyRoom sampleHostRooms
        sampleDataNullRooms = Except.ok sampleHostRooms :=
  ⟨apply_properties_no_rooms sampleApplyRoom sampleHostRooms sampleDataWithDoe2
      (JValue.obj [("doe2", JValue.obj [])]) (by rfl) (by rfl) (Or.inl (by rfl)),
    apply_properties_no_rooms sampleApplyRoom sampleHostRooms sampleDataNullRooms
      (JValue.obj [("doe2", JValue.obj [])]) (by rfl) (by rfl) (Or.inr (by rfl))⟩

/-- The double-quote character used by INP object names. -/
def quoteChar : Char := Char.ofNat 34

/-- Horizontal whitespace stripped from INP lines. -/
def isInpSpace (c : Char) : Bool := c = ' ' || c = '\t' || c = '\r'

/-- Strip leading and trailing whitespace from a character list. -/
def trimChars (l : List Char) : List Char :=
  ((l.dropWhile isInpSpace).reverse.dropWhile isInpSpace).reverse

/-- Split a character list at the first occurrence of `sep`, returning the
parts before and after it, or `none` when `sep` does not occur. -/
def breakAtChar (sep : Char) : List Char → Option (List Char × List Char)
  | [] => none
  | c :: cs =>
    if c = sep then some ([], cs)
    else
      match breakAtChar sep cs with
      | none => none
      | some (pre2, post2) => some (c :: pre2, post2)

/-- Split a character list on every occurrence of `sep`. -/
def splitOnChar (sep : Char) : List Char → List (List Char)
  | [] => [[]]
  | c :: cs =>
    match splitOnChar sep cs with
    | [] => [[c]]
    | r :: rs => if c = sep then [] :: r :: rs else (c :: r) :: rs

def digitsToNatAux (acc : Nat) : List Char → Option Nat
  | [] => some acc
  | c :: cs =>
    if c.isDigit then digitsToNatAux (acc * 10 + (c.toNat - 48)) cs else none

/-- Parse a non-empty all-digit character list as a natural number. -/
def charsToNat (l : List Char) : Option Nat :=
  match l with
  | [] => none
  | _ :: _ => digitsToNatAux 0 l

/-- Parse an optionally negated integer literal. -/
def charsToInt : List Char → Option Int
  | '-' :: rest => (charsToNat rest).map (fun n => -(n : Int))
  | l => (charsToNat l).map (fun n => (n : Int))

/-- A parsed INP field value: numeric literals become numbers, quoted
strings are unwrapped, bracketed comma-delimited lists become sequences,
anything else stays a raw string.  Modelled from the spec: the repository
module `honeybee_doe2/reader.py` is not among the available sources (only
its test is), so the value grammar follows the specification text. -/
inductive InpValue where
  | str (s : String)
  | num (n : Int)
  | list (items : List String)
  deriving DecidableEq, Repr

/-- Parse the right-hand side of an INP field assignment.  Modelled from
the spec (see `InpValue`). -/
def parseInpValue (v : List Char) : InpValue :=
  match v with
  | [] => InpValue.str ""
  | c :: cs =>
    if c = quoteChar then
      match breakAtChar quoteChar cs with
      | some (s, _) => InpValue.str (String.mk s)
      | none => InpValue.str (String.mk v)
    else if c = '(' && v.getLast? = some ')' then
      InpValue.list ((splitOnChar ',' cs.dropLast).map
        (fun w => String.mk (trimChars w)))
    else
      match charsToInt v with
      | some n => InpValue.num n
      | none => InpValue.str (String.mk v)

/-- Recognize a block header `"object name" = COMMAND`, returning the
command keyword and the object name.  Modelled from the spec (see
`InpValue`). -/
def parseHeaderChars (t : List Char) : Option (String × String) :=
  match t with
  | [] => none
  | c :: cs =>
    if c = quoteChar then
      match breakAtChar quoteChar cs with
      | none => none
      | some (nm, tail) =>
        match trimChars tail with
        | [] => none
        | e :: cmdPart =>
          if e = '=' then
            match trimChars cmdPart with
            | [] => none
            | cmd => some (String.mk cmd, String.mk nm)
          else none
    else none

/-- Recognize a field assignment `field-name = value`.  Modelled from the
spec (see `InpValue`). -/
def parseFieldChars (t : List Char) : Option (String × InpValue) :=
  match breakAtChar '=' t with
  | none => none
  | some (k, v) =>
    match trimChars k with
    | [] => none
    | key => some (String.mk key, parseInpValue (trimChars v))

/-- The classification of one INP line. -/
inductive LineKind where
  | blank
  | comment
  | delim
  | header (cmd : String) (nm : String)
  | field (k : String) (v : InpValue)
  | other
  deriving DecidableEq, Repr

/-- Classify a raw INP line: blank lines and `$` comment lines are
skipped, `..` ends a block, a quoted name with `= COMMAND` opens a block,
a `key = value` pair is a field, anything else is tolerated and ignored.
Modelled from the spec (see `InpValue`). -/
def classifyLine (line : String) : LineKind :=
  match trimChars line.toList with
  | [] => LineKind.blank
  | c :: cs =>
    if c = '$' then LineKind.comment
    else if c :: cs = ['.', '.'] then LineKind.delim
    else
      match parseHeaderChars (c :: cs) with
      | some (cmd, nm) => LineKind.header cmd nm
      | none =>
        match parseFieldChars (c :: cs) with
        | some (k, v) => LineKind.field k v
        | none => LineKind.other

/-- Field mapping of one INP object. -/
abbrev FieldMap := List (String × InpValue)

/-- Mapping from object name to field mapping. -/
abbrev ObjMap := List (String × FieldMap)

/-- Mapping from command keyword to object mapping. -/
abbrev CommandDict := List (String × ObjMap)

/-- Insert into an association list with Python-dict semantics: an
existing key keeps its position and gets the new value (last write wins),
a new key is appended. -/
def alistInsert {α : Type} (k : String) (v : α) :
    List (String × α) → List (String × α)
  | [] => [(k, v)]
  | (k2, v2) :: rest =>
    if k2 = k then (k2, v) :: rest else (k2, v2) :: alistInsert k v rest

/-- Parser state: the currently open block (command, name, fields read so
far) and the committed command dictionary. -/
structure InpState where
  current : Option (String × String × FieldMap)
  result : CommandDict
  deriving DecidableEq, Repr

def initState : InpState := ⟨none, []⟩

/-- Commit a finished block into the command dictionary. -/
def commitBlock (cmd nm : String) (fields : FieldMap) (d : CommandDict) :
    CommandDict :=
  alistInsert cmd (alistInsert nm fields ((alistLookup cmd d).getD [])) d

/-- Process one INP line: comments, blanks and unrecognized lines are
skipped; a header opens a block (committing any block left open); fields
accumulate into the open block; `..` commits the open block.  Modelled
from the spec (see `InpValue`). -/
def stepLine (s : InpState) (line : String) : InpState :=
  match classifyLine line with
  | LineKind.blank => s
  | LineKind.comment => s
  | LineKind.other => s
  | LineKind.delim =>
    match s.current with
    | none => s
    | some (cmd, nm, fields) => ⟨none, commitBlock cmd nm fields s.result⟩
  | LineKind.header cmd nm =>
    match s.current with
    | none => ⟨some (cmd, nm, []), s.result⟩
    | some (c0, n0, f0) => ⟨some (cmd, nm, []), commitBlock c0 n0 f0 s.result⟩
  | LineKind.field k v =>
    match s.current with
    | none => s
    | some (cmd, nm, fields) => ⟨some (cmd, nm, alistInsert k v fields), s.result⟩

/-- Run the line processor over a list of lines. -/
def processLines (s : InpState) (lines : List String) : InpState :=
  lines.foldl stepLine s

def splitLinesChars : List Char → List String
  | [] => [""]
  | c :: cs =>
    match splitLinesChars cs with
    | [] => [String.mk [c]]
    | r :: rs =>
      if c = '\n' then "" :: r :: rs
      else String.mk (c :: r.toList) :: rs

/-- Split a text into its lines at newline characters. -/
def splitLines (text : String) : List String := splitLinesChars text.toList

/-- `honeybee_doe2.reader.command_dict_from_inp`.  Modelled from the spec:
the reader module is not among the available sources (only its test is),
so this follows the specification text — parse the INP text's keyword-led
command blocks of `field = value` assignments terminated by a block
delimiter into a nested mapping command keyword → object name → field
mapping, skipping comments, blank lines and malformed content, with
last-write-wins on duplicate names; an unterminated trailing block is not
committed. -/
def command_dict_from_inp (text : String) : CommandDict :=
  (processLines initState (splitLines text)).result

/-- A line that neither ends a block nor opens a new one. -/
def isBodyLine (l : String) : Bool :=
  match classifyLine l with
  | LineKind.delim => false
  | LineKind.header _ _ => false
  | _ => true

/-- The field mapping accumulated from the body lines of a block. -/
def collectFields (ls : List String) : FieldMap :=
  ls.foldl (fun acc l =>
    match classifyLine l with
    | LineKind.field k v => alistInsert k v acc
    | _ => acc) []

theorem alistLookup_insert_self {α : Type} (k : String) (v : α)
    (l : List (String × α)) :
    alistLookup k (alistInsert k v l) = some v := by
  induction l with
  | nil => simp [alistInsert, alistLookup]
  | cons p rest ih =>
    obtain ⟨k2, v2⟩ := p
    by_cases h : k2 = k <;> simp [alistInsert, alistLookup, h, ih]

theorem alistLookup_insert_ne {α : Type} (k k2 : String) (v : α)
    (l : List (String × α)) (h : k2 ≠ k) :
    alistLookup k2 (alistInsert k v l) = alistLookup k2 l := by
  induction l with
  | nil => simp [alistInsert, alistLookup, Ne.symm h]
  | cons p rest ih =>
    obtain ⟨k3, v3⟩ := p
    by_cases h3 : k3 = k
    · subst h3
      simp [alistInsert, alistLookup, Ne.symm h]
    · simp [alistInsert, alistLookup, h3, ih]

theorem commitBlock_preserves (tc tn c n : String) (f : FieldMap)
    (d : CommandDict) (obj : ObjMap) (fields : FieldMap)
    (hobj : alistLookup tc d = some obj)
    (hfld : alistLookup tn obj = some fields)
    (hne : ¬(c = tc ∧ n = tn)) :
    ∃ obj2, alistLookup tc (commitBlock c n f d) = some obj2
      ∧ alistLookup tn obj2 = some fields := by
  by_cases hc : c = tc
  · subst hc
    have hn : n ≠ tn := fun hh => hne ⟨rfl, hh⟩
    refine ⟨alistInsert n f ((alistLookup c d).getD []), ?_, ?_⟩
    · exact alistLookup_insert_self c _ d
    · rw [alistLookup_insert_ne n tn f _ (Ne.symm hn), hobj]
      exact hfld
  · refine ⟨obj, ?_, hfld⟩
    rw [commitBlock, alistLookup_insert_ne c tc _ d (fun hh => hc hh.symm)]
    exact hobj

theorem processLines_append (s : InpState) (a b : List String) :
    processLines s (a ++ b) = processLines (processLines s a) b :=
  List.foldl_append stepLine s a b

theorem processLines_body (ls : List String) (cmd nm : String) (f : FieldMap)
    (d : CommandDict) (h : ∀ l ∈ ls, isBodyLine l = true) :
    processLines ⟨some (cmd, nm, f), d⟩ ls
      = ⟨some (cmd, nm, ls.foldl (fun acc l =>
          match classifyLine l with
          | LineKind.field k v => alistInsert k v acc
          | _ => acc) f), d⟩ := by
  induction ls generalizing f with
  | nil => rfl
  | cons l rest ih =>
    have hl := h l (List.mem_cons_self l rest)
    have hrest : ∀ x ∈ rest, isBodyLine x = true :=
      fun x hx => h x (List.mem_cons_of_mem l hx)
    cases hcl : classifyLine l with
    | blank =>
      have hs : stepLine ⟨some (cmd, nm, f), d⟩ l = ⟨some (cmd, nm, f), d⟩ := by
        simp [stepLine, hcl]
      calc processLines ⟨some (cmd, nm, f), d⟩ (l :: rest)
          = processLines (stepLine ⟨some (cmd, nm, f), d⟩ l) rest := rfl
        _ = processLines ⟨some (cmd, nm, f), d⟩ rest := by rw [hs]
        _ = _ := by rw [ih f hrest]; simp [List.foldl_cons, hcl]
    | comment =>
      have hs : stepLine ⟨some (cmd, nm, f), d⟩ l = ⟨some (cmd, nm, f), d⟩ := by
        simp [stepLine, hcl]
      calc processLines ⟨some (cmd, nm, f), d⟩ (l :: rest)
          = processLines (stepLine ⟨some (cmd, nm, f), d⟩ l) rest := rfl
        _ = processLines ⟨some (cmd, nm, f), d⟩ rest := by rw [hs]
        _ = _ := by rw [ih f hrest]; simp [List.foldl_cons, hcl]
    | other =>
      have hs : stepLine ⟨some (cmd, nm, f), d⟩ l = ⟨some (cmd, nm, f), d⟩ := by
        simp [stepLine, hcl]
      calc processLines ⟨some (cmd, nm, f), d⟩ (l :: rest)
          = processLines (stepLine ⟨some (cmd, nm, f), d⟩ l) rest := rfl
        _ = processLines ⟨some (cmd, nm, f), d⟩ rest := by rw [hs]
        _ = _ := by rw [ih f hrest]; simp [List.foldl_cons, hcl]
    | field k v =>
      have hs : stepLine ⟨some (cmd, nm, f), d⟩ l
          = ⟨some (cmd, nm, alistInsert k v f), d⟩ := by
        simp [stepLine, hcl]
      calc processLines ⟨some (cmd, nm, f), d⟩ (l :: rest)
          = processLines (stepLine ⟨some (cmd, nm, f), d⟩ l) rest := rfl
        _ = processLines ⟨some (cmd, nm, alistInsert k v f), d⟩ rest := by rw [hs]
        _ = _ := by rw [ih (alistInsert k v f) hrest]; simp [List.foldl_cons, hcl]
    | delim => simp [isBodyLine, hcl] at hl
    | header c2 n2 => simp [isBodyLine, hcl] at hl

theorem stepLine_preserves (tc tn : String) (fields : FieldMap)
    (s : InpState) (l : String)
    (hl : classifyLine l ≠ LineKind.header tc tn)
    (hres : ∃ obj, alistLookup tc s.result = some obj
      ∧ alistLookup tn obj = some fields)
    (hcur : ∀ c n f, s.current = some (c, n, f) → ¬(c = tc ∧ n = tn)) :
    (∃ obj, alistLookup tc (stepLine s l).result = some obj
      ∧ alistLookup tn obj = some fields)
    ∧ (∀ c n f, (stepLine s l).current = some (c, n, f)
        → ¬(c = tc ∧ n = tn)) := by
  obtain ⟨cur, res⟩ := s
  obtain ⟨obj, hobj, hfld⟩ := hres
  cases hcl : classifyLine l with
  | blank =>
    have hs : stepLine ⟨cur, res⟩ l = ⟨cur, res⟩ := by simp [stepLine, hcl]
    rw [hs]
    exact ⟨⟨obj, hobj, hfld⟩, hcur⟩
  | comment =>
    have hs : stepLine ⟨cur, res⟩ l = ⟨cur, res⟩ := by simp [stepLine, hcl]
    rw [hs]
    exact ⟨⟨obj, hobj, hfld⟩, hcur⟩
  | other =>
    have hs : stepLine ⟨cur, res⟩ l = ⟨cur, res⟩ := by simp [stepLine, hcl]
    rw [hs]
    exact ⟨⟨obj, hobj, hfld⟩, hcur⟩
  | field k v =>
    cases cur with
    | none =>
      have hs : stepLine ⟨none, res⟩ l = ⟨none, res⟩ := by simp [stepLine, hcl]
      rw [hs]
      refine ⟨⟨obj, hobj, hfld⟩, ?_⟩
      intro c n f hcf
      simp at hcf
    | some t =>
      obtain ⟨c0, n0, f0⟩ := t
      have hs : stepLine ⟨some (c0, n0, f0), res⟩ l
          = ⟨some (c0, n0, alistInsert k v f0), res⟩ := by simp [stepLine, hcl]
      rw [hs]
      refine ⟨⟨obj, hobj, hfld⟩, ?_⟩
      intro c n f hcf
      simp at hcf
      obtain ⟨e1, e2, e3⟩ := hcf
      subst e1
      subst e2
      exact hcur c0 n0 f0 rfl
  | delim =>
    cases cur with
    | none =>
      have hs : stepLine ⟨none, res⟩ l = ⟨none, res⟩ := by simp [stepLine, hcl]
      rw [hs]
      refine ⟨⟨obj, hobj, hfld⟩, ?_⟩
      intro c n f hcf
      exact absurd hcf (by simp)
    | some t =>
      obtain ⟨c0, n0, f0⟩ := t
      have hne := hcur c0 n0 f0 rfl
      obtain ⟨obj2, hobj2, hfld2⟩ :=
        commitBlock_preserves tc tn c0 n0 f0 res obj fields hobj hfld hne
      have hs : stepLine ⟨some (c0, n0, f0), res⟩ l
          = ⟨none, commitBlock c0 n0 f0 res⟩ := by simp [stepLine, hcl]
      rw [hs]
      refine ⟨⟨obj2, hobj2, hfld2⟩, ?_⟩
      intro c n f hcf
      exact absurd hcf (by simp)
  | header c2 n2 =>
    have hne2 : ¬(c2 = tc ∧ n2 = tn) := by
      rintro ⟨h1, h2⟩
      exact hl (by rw [hcl, h1, h2])
    cases cur with
    | none =>
      have hs : stepLine ⟨none, res⟩ l = ⟨some (c2, n2, []), res⟩ := by
        simp [stepLine, hcl]
      rw [hs]
      refine ⟨⟨obj, hobj, hfld⟩, ?_⟩
      intro c n f hcf
      simp at hcf
      obtain ⟨e1, e2, e3⟩ := hcf
      subst e1
      subst e2
      exact hne2
    | some t =>
      obtain ⟨c0, n0, f0⟩ := t
      have hne := hcur c0 n0 f0 rfl
      obtain ⟨obj2, hobj2, hfld2⟩ :=
        commitBlock_preserves tc tn c0 n0 f0 res obj fields hobj hfld hne
      have hs : stepLine ⟨some (c0, n0, f0), res⟩ l
          = ⟨some (c2, n2, []), commitBlock c0 n0 f0 res⟩ := by
        simp [stepLine, hcl]
      rw [hs]
      refine ⟨⟨obj2, hobj2, hfld2⟩, ?_⟩
      intro c n f hcf
      simp at hcf
      obtain ⟨e1, e2, e3⟩ := hcf
      subst e1
      subst e2
      exact hne2

theorem processLines_preserves (tc tn : String) (fields : FieldMap)
    (ls : List String) (s : InpState)
    (hpost : ∀ l ∈ ls, classifyLine l ≠ LineKind.header tc tn)
    (hres : ∃ obj, alistLookup tc s.result = some obj
      ∧ alistLookup tn obj = some fields)
    (hcur : ∀ c n f, s.current = some (c, n, f) → ¬(c = tc ∧ n = tn)) :
    ∃ obj, alistLookup tc (processLines s ls).result = some obj
      ∧ alistLookup tn obj = some fields := by
  induction ls generalizing s with
  | nil => exact hres
  | cons l rest ih =>
    have hl := hpost l (List.mem_cons_self l rest)
    have hrest : ∀ x ∈ rest, classifyLine x ≠ LineKind.header tc tn :=
      fun x hx => hpost x (List.mem_cons_of_mem l hx)
    obtain ⟨hres2, hcur2⟩ := stepLine_preserves tc tn fields s l hl hres hcur
    exact ih (stepLine s l) hrest hres2 hcur2

/-- C9: for an INP text whose lines consist of a prefix that leaves no
block open, then a `SPACE` block header for `name`, body lines carrying at
least one field assignment, the block delimiter, and a remainder that
never redefines that `SPACE` object (the spec assumes object names are
unique within a command type), `command_dict_from_inp` maps `"SPACE"` and
then `name` to the block's non-empty field mapping. -/
theorem command_dict_from_inp_space_block
    (text : String) (pre assignLines post : List String)
    (headerLine name : String)
    (htext : splitLines text = pre ++ headerLine :: (assignLines ++ ".." :: post))
    (hpre : (processLines initState pre).current = none)
    (hheader : classifyLine headerLine = LineKind.header "SPACE" name)
    (hbody : ∀ l ∈ assignLines, isBodyLine l = true)
    (hfields : collectFields assignLines ≠ [])
    (hpost : ∀ l ∈ post, classifyLine l ≠ LineKind.header "SPACE" name) :
    ∃ obj, alistLookup "SPACE" (command_dict_from_inp text) = some obj
      ∧ alistLookup name obj = some (collectFields assignLines)
      ∧ collectFields assignLines ≠ [] := by
  rcases hS : processLines initState pre with ⟨c0, r0⟩
  rw [hS] at hpre
  simp at hpre
  subst hpre
  have h1 : command_dict_from_inp text
      = (processLines ⟨none, r0⟩
          (headerLine :: (assignLines ++ ".." :: post))).result := by
    rw [command_dict_from_inp, htext, processLines_append, hS]
  have h2 : processLines ⟨none, r0⟩ (headerLine :: (assignLines ++ ".." :: post))
      = processLines ⟨some ("SPACE", name, []), r0⟩
          (assignLines ++ ".." :: post) := by
    show processLines (stepLine ⟨none, r0⟩ headerLine)
        (assignLines ++ ".." :: post) = _
    rw [show stepLine ⟨none, r0⟩ headerLine = ⟨some ("SPACE", name, []), r0⟩ from
      by simp [stepLine, hheader]]
  have h3 : processLines ⟨some ("SPACE", name, []), r0⟩
        (assignLines ++ ".." :: post)
      = processLines ⟨some ("SPACE", name, collectFields assignLines), r0⟩
          (".." :: post) := by
    rw [processLines_append, processLines_body assignLines "SPACE" name [] r0 hbody]
    rfl
  have hdelim : classifyLine ".." = LineKind.delim := by decide
  have h4 : processLines ⟨some ("SPACE", name, collectFields assignLines), r0⟩
        (".." :: post)
      = processLines
          ⟨none, commitBlock "SPACE" name (collectFields assignLines) r0⟩
          post := by
    show processLines
        (stepLine ⟨some ("SPACE", name, collectFields assignLines), r0⟩ "..")
        post = _
    rw [show stepLine ⟨some ("SPACE", name, collectFields assignLines), r0⟩ ".."
        = ⟨none, commitBlock "SPACE" name (collectFields assignLines) r0⟩ from
      by simp [stepLine, hdelim]]
  have hres0 : ∃ obj, alistLookup "SPACE"
      (commitBlock "SPACE" name (collectFields assignLines) r0) = some obj
      ∧ alistLookup name obj = some (collectFields assignLines) := by
    refine ⟨alistInsert name (collectFields assignLines)
      ((alistLookup "SPACE" r0).getD []), ?_, ?_⟩
    · exact alistLookup_insert_self "SPACE" _ r0
    · exact alistLookup_insert_self name _ _
  obtain ⟨obj, hobj, hfld⟩ := processLines_preserves "SPACE" name
    (collectFields assignLines) post
    ⟨none, commitBlock "SPACE" name (collectFields assignLines) r0⟩
    hpost hres0 (by intro c n f hcf; exact absurd hcf (by simp))
  refine ⟨obj, ?_, hfld, hfields⟩
  rw [h1, h2, h3, h4]
  exact hobj

/-- Witness for C9 on a concrete INP text containing the `SPACE` block of
the repository's test file. -/
theorem command_dict_from_inp_space_block_witness :
    ∃ obj, alistLookup "SPACE" (command_dict_from_inp
        "$ test project\n\n\"L1WNE Perim Spc (G.NE1)\" = SPACE\n   SHAPE = POLYGON\n   AREA = 100\n..\n\n\"Other Spc\" = SPACE\n..")
        = some obj
      ∧ alistLookup "L1WNE Perim Spc (G.NE1)" obj
          = some (collectFields ["   SHAPE = POLYGON", "   AREA = 100"])
      ∧ collectFields ["   SHAPE = POLYGON", "   AREA = 100"] ≠ [] :=
  command_dict_from_inp_space_block
    "$ test project\n\n\"L1WNE Perim Spc (G.NE1)\" = SPACE\n   SHAPE = POLYGON\n   AREA = 100\n..\n\n\"Other Spc\" = SPACE\n.."
    ["$ test project", ""]
    ["   SHAPE = POLYGON", "   AREA = 100"]
    ["", "\"Other Spc\" = SPACE", ".."]
    "\"L1WNE Perim Spc (G.NE1)\" = SPACE" "L1WNE Perim Spc (G.NE1)"
    (by decide) (by decide) (by decide) (by decide) (by decide) (by decide)
